import Mathlib

/-!
Shallow embedding of src/newsletter.py: the article aggregation and
normalization pipeline (keyword-search adapter, feed-search adapter,
URL deduplication, prompt formatter, pipeline driver), with the external
HTTP responses passed in as explicit data.
-/

namespace NewsPipe

/-- A JSON-dictionary field as the Python code sees it: the key may be absent
(`missing`), present with value `None` (`null`), or present with a string. -/
inductive JsonField
  | missing
  | null
  | str (s : String)
deriving DecidableEq

/-- The "source" field of an article dict: absent, `None`, or a dict whose
"name" field is itself absent, `None`, or a string. -/
inductive SrcField
  | missing
  | null
  | obj (name : JsonField)
deriving DecidableEq

/-- An article record, a Python dict with the five keys the program reads:
"title", "url", "publishedAt", "source" and "description". -/
structure Article where
  title : JsonField
  url : JsonField
  publishedAt : JsonField
  source : SrcField
  description : JsonField
deriving DecidableEq

/-- The configured keyword list (src/newsletter.py lines 16-25). -/
def KEYWORDS : List String :=
  ["AI search", "AI search engine", "Google AI Overviews", "SearchGPT",
   "Perplexity AI", "Bing Copilot search", "generative search", "AI SEO"]

/-- One HTTP response of the article-search service, already JSON-parsed:
the status code and the "articles" key of the body (`none` when the body has
no "articles" key, so that `data.get("articles", [])` yields `[]`). -/
structure NewsApiResponse where
  status : Nat
  articles : Option (List Article)
deriving DecidableEq

/-- One `item` element of a feed document. `findtext` with default `""`
always yields a string, so the three fields are plain strings. -/
structure RssItem where
  title : String
  link : String
  pubDate : String
deriving DecidableEq

/-- One HTTP response of the feed endpoint: status code and the parsed
`item` elements of the document. -/
structure RssResponse where
  status : Nat
  items : List RssItem
deriving DecidableEq

/-- Python `a["url"]` used as a set key: a missing key raises `KeyError`,
value `None` is the key `none`, a string `s` is the key `some s`. -/
def urlKey : JsonField → Except String (Option String)
  | JsonField.missing => Except.error "KeyError"
  | JsonField.null => Except.ok none
  | JsonField.str s => Except.ok (some s)

/-- The deduplication loop of `fetch_newsapi_articles` (lines 49-54): `seen`
is the set of URL keys seen so far, `unique` the output built by `append`. -/
def dedupeGo (seen : List (Option String)) (unique : List Article) :
    List Article → Except String (List Article)
  | [] => Except.ok unique
  | a :: rest =>
    match urlKey a.url with
    | Except.error e => Except.error e
    | Except.ok k =>
      if k ∈ seen then dedupeGo seen unique rest
      else dedupeGo (k :: seen) (unique ++ [a]) rest

/-- The dedup pass of `fetch_newsapi_articles` (lines 48-56), started with an
empty seen set and an empty output. -/
def dedupe (l : List Article) : Except String (List Article) :=
  dedupeGo [] [] l

/-- The keyword loop of `fetch_newsapi_articles` (lines 33-46): one response
per keyword, in keyword order; a response extends `articles` with the body's
"articles" list exactly when its status code is 200. -/
def newsapiGo (acc : List Article) : List NewsApiResponse → List Article
  | [] => acc
  | r :: rest =>
    newsapiGo (acc ++ (if r.status = 200 then r.articles.getD [] else [])) rest

/-- `fetch_newsapi_articles` (lines 28-56) as a function of the per-keyword
HTTP responses: collect, then deduplicate by URL. -/
def fetch_newsapi_articles (responses : List NewsApiResponse) :
    Except String (List Article) :=
  dedupe (newsapiGo [] responses)

/-- Building the article dict from one feed item (lines 75-81). -/
def itemToArticle (item : RssItem) : Article :=
  { title := JsonField.str item.title
    url := JsonField.str item.link
    publishedAt := JsonField.str item.pubDate
    source := SrcField.obj (JsonField.str "Google News")
    description := JsonField.str "" }

/-- The query loop of `fetch_google_news_rss` (lines 66-81): one response per
query, in query order; a 200 response contributes its first five items in
document order, any other status contributes nothing. -/
def rssGo (acc : List Article) : List RssResponse → List Article
  | [] => acc
  | r :: rest =>
    rssGo (acc ++ (if r.status = 200 then (r.items.take 5).map itemToArticle else []))
      rest

/-- `fetch_google_news_rss` (lines 59-83) as a function of the per-query
HTTP responses. -/
def fetch_google_news_rss (responses : List RssResponse) : List Article :=
  rssGo [] responses

/-- What one 200-response of the feed endpoint contributes (a non-200
response contributes nothing). -/
def rssPerQuery (r : RssResponse) : List Article :=
  if r.status = 200 then (r.items.take 5).map itemToArticle else []

/-- What one 200-response of the search service contributes (a non-200
response contributes nothing). -/
def newsapiPerKeyword (r : NewsApiResponse) : List Article :=
  if r.status = 200 then r.articles.getD [] else []

/-- Python `x.get(key)`: `none` when the key is absent or its value is
`None`, otherwise the string. -/
def jGet : JsonField → Option String
  | JsonField.missing => none
  | JsonField.null => none
  | JsonField.str s => some s

/-- Python `x or d` on an optional string: `None` and the empty string are
falsy and give the default `d`. -/
def pyOr (v : Option String) (d : String) : String :=
  match v with
  | none => d
  | some s => if s = "" then d else s

/-- Line 91, `a.get("source", \x7b\x7d).get("name") or "Unknown"`: a missing
"source" key gives the empty dict, so "Unknown"; a `None` "source" raises
`AttributeError`; a dict defaults a falsy name to "Unknown". -/
def sourceName : SrcField → Except String String
  | SrcField.missing => Except.ok "Unknown"
  | SrcField.null => Except.error "AttributeError"
  | SrcField.obj name => Except.ok (pyOr (jGet name) "Unknown")

/-- Total version of `sourceName`, agreeing with it away from the raising
`null` case. -/
def sourceNameOk : SrcField → String
  | SrcField.missing => "Unknown"
  | SrcField.null => "Unknown"
  | SrcField.obj name => pyOr (jGet name) "Unknown"

/-- One formatted paragraph (line 95) for the 1-based index `i`, the already
computed source name `src` and the article `a`. -/
def formatLine (i : Nat) (src : String) (a : Article) : String :=
  toString i ++ ". [" ++ src ++ "] " ++ pyOr (jGet a.title) "" ++ "\n   " ++
    pyOr (jGet a.publishedAt) "" ++ "\n   " ++ pyOr (jGet a.description) "" ++
    "\n   " ++ pyOr (jGet a.url) ""

/-- The enumerate loop of `format_articles_for_prompt` (lines 88-95),
starting at index `i`; computing the source name may raise. -/
def formatLines (i : Nat) : List Article → Except String (List String)
  | [] => Except.ok []
  | a :: rest =>
    match sourceName a.source with
    | Except.error e => Except.error e
    | Except.ok src =>
      match formatLines (i + 1) rest with
      | Except.error e => Except.error e
      | Except.ok ls => Except.ok (formatLine i src a :: ls)

/-- `format_articles_for_prompt` (lines 86-96): format the first 30 records,
join the paragraphs with a blank line. -/
def format_articles_for_prompt (articles : List Article) :
    Except String String :=
  match formatLines 1 (articles.take 30) with
  | Except.error e => Except.error e
  | Except.ok ls => Except.ok (String.intercalate "\n\n" ls)

/-- Total version of `formatLines`, agreeing with it when no source field is
`null`. -/
def linesOk (i : Nat) : List Article → List String
  | [] => []
  | a :: rest => formatLine i (sourceNameOk a.source) a :: linesOk (i + 1) rest

/-- Line 170 of `main`: the aggregated list handed on to the formatter. -/
def all_articles (newsapi_articles rss_articles : List Article) :
    List Article :=
  newsapi_articles ++ rss_articles

/-- The aggregated list of a whole run, as a function of both adapters' HTTP
responses (the dedup pass may raise). -/
def aggregatedRun (newsResp : List NewsApiResponse) (rssResp : List RssResponse) :
    Except String (List Article) :=
  match fetch_newsapi_articles newsResp with
  | Except.error e => Except.error e
  | Except.ok n => Except.ok (all_articles n (fetch_google_news_rss rssResp))

/-- One observable step of the pipeline driver `main` (lines 161-181). -/
inductive Step
  | printMsg (s : String)
  | generateNewsletter (articles : List Article)
  | sendEmail (articles : List Article)
deriving DecidableEq

/-- The driver `main` (lines 161-181) as the sequence of steps it performs,
as a function of the two adapters' outputs: narration, the empty-list guard,
then generation and delivery only on the non-empty branch. -/
def main (newsapi_articles rss_articles : List Article) : List Step :=
  [Step.printMsg "Fetching articles from NewsAPI...",
   Step.printMsg ("  Found " ++ toString newsapi_articles.length ++ " articles from NewsAPI"),
   Step.printMsg "Fetching articles from Google News RSS...",
   Step.printMsg ("  Found " ++ toString rss_articles.length ++ " articles from Google News RSS")] ++
  (if (all_articles newsapi_articles rss_articles).isEmpty then
    [Step.printMsg "No articles found. Exiting."]
  else
    [Step.printMsg ("Generating newsletter from " ++
        toString (all_articles newsapi_articles rss_articles).length ++ " total articles..."),
     Step.generateNewsletter (all_articles newsapi_articles rss_articles),
     Step.printMsg "Sending email...",
     Step.sendEmail (all_articles newsapi_articles rss_articles),
     Step.printMsg "Done!"])

/-- The URL of a record under the spec's data model, where `url` is always a
string (section 3 of the spec). -/
def urlString (a : Article) : String :=
  match a.url with
  | JsonField.str s => s
  | _ => ""

/-- Reference deduplication loop, written from the spec's words (section 4.3):
single left-to-right pass, keep a record exactly when its URL is not in the
seen set, first occurrence wins. -/
def dedupeSpecGo (seen : List String) : List Article → List Article
  | [] => []
  | a :: rest =>
    if urlString a ∈ seen then dedupeSpecGo seen rest
    else a :: dedupeSpecGo (urlString a :: seen) rest

/-- Reference deduplication from the spec's words, starting from an empty
seen set. -/
def dedupeSpec (l : List Article) : List Article :=
  dedupeSpecGo [] l

/-- Total version of the code's dedup loop (producing the kept records
directly), agreeing with `dedupeGo` when no record lacks a "url" key. -/
def dedupeTotal (seen : List (Option String)) : List Article → List Article
  | [] => []
  | a :: rest =>
    if jGet a.url ∈ seen then dedupeTotal seen rest
    else a :: dedupeTotal (jGet a.url :: seen) rest

/-!
Helper lemmas.
-/

lemma rssGo_append (l : List RssResponse) :
    ∀ acc : List Article, rssGo acc l = acc ++ rssGo [] l := by
  induction l with
  | nil => intro acc; simp [rssGo]
  | cons r rest ih =>
    intro acc
    simp only [rssGo]
    rw [ih, ih ([] ++ (if r.status = 200 then (r.items.take 5).map itemToArticle else []))]
    simp [List.append_assoc]

lemma newsapiGo_append (l : List NewsApiResponse) :
    ∀ acc : List Article, newsapiGo acc l = acc ++ newsapiGo [] l := by
  induction l with
  | nil => intro acc; simp [newsapiGo]
  | cons r rest ih =>
    intro acc
    simp only [newsapiGo]
    rw [ih, ih ([] ++ (if r.status = 200 then r.articles.getD [] else []))]
    simp [List.append_assoc]

lemma fetch_rss_eq_join (l : List RssResponse) :
    fetch_google_news_rss l = (l.map rssPerQuery).join := by
  induction l with
  | nil => rfl
  | cons r rest ih =>
    show rssGo ([] ++ rssPerQuery r) rest = _
    rw [rssGo_append]
    show [] ++ rssPerQuery r ++ fetch_google_news_rss rest = _
    rw [ih]
    simp [rssPerQuery]

lemma newsapiGo_eq_join (l : List NewsApiResponse) :
    newsapiGo [] l = (l.map newsapiPerKeyword).join := by
  induction l with
  | nil => rfl
  | cons r rest ih =>
    show newsapiGo ([] ++ newsapiPerKeyword r) rest = _
    rw [newsapiGo_append, ih]
    simp

lemma urlKey_eq_ok (f : JsonField) (h : f ≠ JsonField.missing) :
    urlKey f = Except.ok (jGet f) := by
  cases f with
  | missing => exact absurd rfl h
  | null => rfl
  | str s => rfl

lemma dedupeGo_eq_total (l : List Article) :
    ∀ seen acc, (∀ a ∈ l, a.url ≠ JsonField.missing) →
      dedupeGo seen acc l = Except.ok (acc ++ dedupeTotal seen l) := by
  induction l with
  | nil => intro seen acc _; simp [dedupeGo, dedupeTotal]
  | cons a rest ih =>
    intro seen acc h
    have ha : a.url ≠ JsonField.missing := h a (List.mem_cons_self a rest)
    have hrest : ∀ b ∈ rest, b.url ≠ JsonField.missing :=
      fun b hb => h b (List.mem_cons_of_mem _ hb)
    simp only [dedupeGo, dedupeTotal, urlKey_eq_ok a.url ha]
    by_cases hmem : jGet a.url ∈ seen
    · simp [hmem, ih seen acc hrest]
    · simp [hmem, ih (jGet a.url :: seen) (acc ++ [a]) hrest]

lemma dedupeGo_missing (l : List Article) :
    ∀ seen acc, (∃ a ∈ l, a.url = JsonField.missing) →
      dedupeGo seen acc l = Except.error "KeyError" := by
  induction l with
  | nil => intro seen acc h; simp at h
  | cons a rest ih =>
    intro seen acc h
    by_cases ha : a.url = JsonField.missing
    · simp [dedupeGo, ha, urlKey]
    · have hrest : ∃ b ∈ rest, b.url = JsonField.missing := by
        rcases h with ⟨b, hb, hb2⟩
        rcases List.mem_cons.mp hb with h1 | h1
        · exact absurd (h1 ▸ hb2) ha
        · exact ⟨b, h1, hb2⟩
      simp only [dedupeGo, urlKey_eq_ok a.url ha]
      by_cases hmem : jGet a.url ∈ seen
      · simp [hmem, ih seen acc hrest]
      · simp [hmem, ih (jGet a.url :: seen) (acc ++ [a]) hrest]

lemma dedupeTotal_nodup (l : List Article) :
    ∀ seen, ((dedupeTotal seen l).map fun a => jGet a.url).Nodup ∧
      ∀ k ∈ (dedupeTotal seen l).map fun a => jGet a.url, k ∉ seen := by
  induction l with
  | nil => intro seen; simp [dedupeTotal]
  | cons a rest ih =>
    intro seen
    by_cases hmem : jGet a.url ∈ seen
    · simpa [dedupeTotal, hmem] using ih seen
    · have h2 := ih (jGet a.url :: seen)
      simp only [dedupeTotal, if_neg hmem, List.map_cons, List.nodup_cons]
      refine ⟨⟨?_, h2.1⟩, ?_⟩
      · intro hcontra
        exact (h2.2 _ hcontra) (List.mem_cons_self _ _)
      · intro k hk
        rcases List.mem_cons.mp hk with h1 | h1
        · exact h1 ▸ hmem
        · intro hks
          exact (h2.2 k h1) (List.mem_cons_of_mem _ hks)

lemma dedupeTotal_sublist (l : List Article) :
    ∀ seen, (dedupeTotal seen l).Sublist l := by
  induction l with
  | nil => intro seen; simp [dedupeTotal]
  | cons a rest ih =>
    intro seen
    by_cases hmem : jGet a.url ∈ seen
    · simp only [dedupeTotal, if_pos hmem]
      exact (ih seen).cons a
    · simp only [dedupeTotal, if_neg hmem]
      exact (ih (jGet a.url :: seen)).cons₂ a

lemma dedupeSpecGo_sublist (l : List Article) :
    ∀ seen, (dedupeSpecGo seen l).Sublist l := by
  induction l with
  | nil => intro seen; simp [dedupeSpecGo]
  | cons a rest ih =>
    intro seen
    by_cases hmem : urlString a ∈ seen
    · simp only [dedupeSpecGo, if_pos hmem]
      exact (ih seen).cons a
    · simp only [dedupeSpecGo, if_neg hmem]
      exact (ih (urlString a :: seen)).cons₂ a

lemma dedupeTotal_eq_specGo (l : List Article) :
    ∀ seen2 : List String, (∀ a ∈ l, ∃ s, a.url = JsonField.str s) →
      dedupeTotal (seen2.map some) l = dedupeSpecGo seen2 l := by
  induction l with
  | nil => intro seen2 _; rfl
  | cons a rest ih =>
    intro seen2 h
    obtain ⟨s, hs⟩ := h a (List.mem_cons_self a rest)
    have hrest : ∀ b ∈ rest, ∃ t, b.url = JsonField.str t :=
      fun b hb => h b (List.mem_cons_of_mem _ hb)
    have hkey : jGet a.url = some s := by rw [hs]; rfl
    have hurl : urlString a = s := by simp [urlString, hs]
    have hmem_iff : (jGet a.url ∈ seen2.map some) ↔ urlString a ∈ seen2 := by
      rw [hkey, hurl]
      simp
    by_cases hmem : urlString a ∈ seen2
    · simp only [dedupeTotal, dedupeSpecGo, if_pos hmem, if_pos (hmem_iff.mpr hmem)]
      exact ih seen2 hrest
    · simp only [dedupeTotal, dedupeSpecGo, if_neg hmem,
        if_neg (fun hc => hmem (hmem_iff.mp hc))]
      rw [hkey, hurl]
      have hcons : (some s :: seen2.map some) = (s :: seen2).map some := rfl
      rw [hcons, ih (s :: seen2) hrest]

lemma fetch_newsapi_ok_nodup (responses : List NewsApiResponse)
    (out : List Article) (h : fetch_newsapi_articles responses = Except.ok out) :
    (out.map fun a => jGet a.url).Nodup := by
  by_cases hm : ∀ a ∈ newsapiGo [] responses, a.url ≠ JsonField.missing
  · rw [fetch_newsapi_articles, dedupe,
      dedupeGo_eq_total (newsapiGo [] responses) [] [] hm] at h
    simp only [List.nil_append, Except.ok.injEq] at h
    rw [← h]
    exact (dedupeTotal_nodup (newsapiGo [] responses) []).1
  · push_neg at hm
    rw [fetch_newsapi_articles, dedupe,
      dedupeGo_missing (newsapiGo [] responses) [] [] hm] at h
    cases h

lemma sourceName_eq_ok (s : SrcField) (h : s ≠ SrcField.null) :
    sourceName s = Except.ok (sourceNameOk s) := by
  cases s with
  | missing => rfl
  | null => exact absurd rfl h
  | obj name => rfl

lemma formatLines_eq_ok (l : List Article) :
    ∀ i, (∀ a ∈ l, a.source ≠ SrcField.null) →
      formatLines i l = Except.ok (linesOk i l) := by
  induction l with
  | nil => intro i _; rfl
  | cons a rest ih =>
    intro i h
    have ha := h a (List.mem_cons_self a rest)
    have hrest : ∀ b ∈ rest, b.source ≠ SrcField.null :=
      fun b hb => h b (List.mem_cons_of_mem _ hb)
    simp [formatLines, linesOk, sourceName_eq_ok a.source ha, ih (i + 1) hrest]

lemma linesOk_length (l : List Article) : ∀ i, (linesOk i l).length = l.length := by
  induction l with
  | nil => intro i; rfl
  | cons a rest ih => intro i; simp [linesOk, ih (i + 1)]

lemma linesOk_get (l : List Article) :
    ∀ i j, (linesOk i l).get? j =
      (l.get? j).map fun a => formatLine (i + j) (sourceNameOk a.source) a := by
  induction l with
  | nil => intro i j; simp [linesOk]
  | cons a rest ih =>
    intro i j
    cases j with
    | zero => simp [linesOk]
    | succ j =>
      simp only [linesOk, List.get?_cons_succ]
      rw [ih (i + 1) j]
      have harith : i + 1 + j = i + (j + 1) := by omega
      rw [harith]

lemma countP_le_one_of_nodup_map {α β : Type} (f : α → β) (p : α → Bool) (k : β)
    (hpk : ∀ a, p a = true → f a = k) :
    ∀ l : List α, (l.map f).Nodup → l.countP p ≤ 1 := by
  intro l
  induction l with
  | nil => intro _; simp
  | cons a rest ih =>
    intro h
    rw [List.map_cons, List.nodup_cons] at h
    rw [List.countP_cons]
    by_cases hpa : p a = true
    · have hzero : rest.countP p = 0 := by
        rw [List.countP_eq_zero]
        intro b hb hpb
        exact h.1 (List.mem_map.mpr ⟨b, hb, (hpk b hpb).trans (hpk a hpa).symm⟩)
      simp [hzero, hpa]
    · have hfalse : p a = false := by simpa using hpa
      simp [hfalse, ih h.2]

lemma newsapiGo_erase (l : List NewsApiResponse) :
    ∀ k r, l.get? k = some r → r.status ≠ 200 →
      newsapiGo [] l = newsapiGo [] (l.eraseIdx k) := by
  induction l with
  | nil => intro k r hk _; simp at hk
  | cons a rest ih =>
    intro k r hk h200
    cases k with
    | zero =>
      have haeq : a = r := by simpa using hk
      subst haeq
      show newsapiGo ([] ++ (if a.status = 200 then a.articles.getD [] else [])) rest =
        newsapiGo [] rest
      rw [if_neg h200]
      rfl
    | succ k =>
      have hk' : rest.get? k = some r := by simpa using hk
      show newsapiGo ([] ++ (if a.status = 200 then a.articles.getD [] else [])) rest =
        newsapiGo ([] ++ (if a.status = 200 then a.articles.getD [] else []))
          (rest.eraseIdx k)
      rw [newsapiGo_append rest, newsapiGo_append (rest.eraseIdx k),
        ih k r hk' h200]

/-!
Concrete inputs used by counterexamples and witnesses.
-/

/-- The spec's first-wins example record with url "a" and title "T1". -/
def articleT1 : Article :=
  { title := JsonField.str "T1", url := JsonField.str "a",
    publishedAt := JsonField.missing, source := SrcField.missing,
    description := JsonField.missing }

/-- The spec's first-wins example record with url "a" and title "T2". -/
def articleT2 : Article :=
  { title := JsonField.str "T2", url := JsonField.str "a",
    publishedAt := JsonField.missing, source := SrcField.missing,
    description := JsonField.missing }

/-- A record with url "b". -/
def articleB : Article :=
  { title := JsonField.str "TB", url := JsonField.str "b",
    publishedAt := JsonField.missing, source := SrcField.missing,
    description := JsonField.missing }

/-- A record whose dict has no "url" key at all. -/
def articleNoUrl : Article :=
  { title := JsonField.str "T", url := JsonField.missing,
    publishedAt := JsonField.missing, source := SrcField.missing,
    description := JsonField.missing }

/-- A record whose "title" and "description" keys hold `None`. -/
def articleNulls : Article :=
  { title := JsonField.null, url := JsonField.str "u",
    publishedAt := JsonField.str "d", source := SrcField.missing,
    description := JsonField.null }

/-- A feed response whose two items share the link "a". -/
def dupRssResponse : RssResponse :=
  { status := 200, items := [⟨"T1", "a", "d1"⟩, ⟨"T2", "a", "d2"⟩] }

/-- A feed response whose two items both lack a link (empty string). -/
def emptyUrlRssResponse : RssResponse :=
  { status := 200, items := [⟨"T1", "", ""⟩, ⟨"T2", "", ""⟩] }

/-- A search-service response with a non-success status. -/
def failResponse : NewsApiResponse := { status := 500, articles := none }

/-- A successful search-service response carrying one article. -/
def okResponse : NewsApiResponse := { status := 200, articles := some [articleB] }

/-- A successful search-service response with a repeated article. -/
def dupNewsResponse : NewsApiResponse :=
  { status := 200, articles := some [articleT1, articleT1, articleB] }

/-- A successful search-service response with two empty-url articles. -/
def emptyUrlArticle : Article :=
  { title := JsonField.str "E1", url := JsonField.str "",
    publishedAt := JsonField.missing, source := SrcField.missing,
    description := JsonField.missing }

/-- A second empty-url article. -/
def emptyUrlArticle2 : Article :=
  { title := JsonField.str "E2", url := JsonField.str "",
    publishedAt := JsonField.missing, source := SrcField.missing,
    description := JsonField.missing }

/-- A successful search-service response carrying both empty-url articles. -/
def emptyUrlNewsResponse : NewsApiResponse :=
  { status := 200, articles := some [emptyUrlArticle, emptyUrlArticle2] }

/-!
Claim theorems.
-/

/-- C1 (counterexample): deduplication runs only inside the keyword adapter,
so a run in which the feed adapter returns the same link "a" for two items
hands the formatter an aggregated list with two records whose url is the
same non-empty string "a". -/
theorem aggregated_dup_url_counterexample :
    aggregatedRun [] [dupRssResponse] =
      Except.ok [itemToArticle ⟨"T1", "a", "d1"⟩, itemToArticle ⟨"T2", "a", "d2"⟩] ∧
    (itemToArticle ⟨"T1", "a", "d1"⟩).url = JsonField.str "a" ∧
    (itemToArticle ⟨"T2", "a", "d2"⟩).url = JsonField.str "a" ∧
    itemToArticle (⟨"T1", "a", "d1"⟩ : RssItem) ≠ itemToArticle ⟨"T2", "a", "d2"⟩ ∧
    ("a" : String) ≠ "" := by
  refine ⟨rfl, rfl, rfl, ?_, ?_⟩ <;> decide

/-- C1 (amended): only the keyword adapter's output is deduplicated, and it
indeed contains no two records with the same url key; the feed adapter's
output is concatenated onto it without deduplication, so the full aggregated
list may repeat a non-empty url. -/
theorem newsapi_no_duplicate_urls (responses : List NewsApiResponse)
    (out : List Article) (h : fetch_newsapi_articles responses = Except.ok out) :
    (out.map fun a => jGet a.url).Nodup :=
  fetch_newsapi_ok_nodup responses out h

/-- Witness for C1 (amended) at a concrete run of the keyword adapter. -/
theorem newsapi_no_duplicate_urls_witness :
    (([articleT1, articleB].map fun a => jGet a.url)).Nodup :=
  newsapi_no_duplicate_urls [dupNewsResponse] [articleT1, articleB] rfl

/-- C2 (counterexample): two feed items without a link both survive the run,
so more than one empty-url record reaches the formatter. -/
theorem two_empty_url_records_survive :
    aggregatedRun [] [emptyUrlRssResponse] =
      Except.ok [itemToArticle ⟨"T1", "", ""⟩, itemToArticle ⟨"T2", "", ""⟩] ∧
    (itemToArticle (⟨"T1", "", ""⟩ : RssItem)).url = JsonField.str "" ∧
    (itemToArticle (⟨"T2", "", ""⟩ : RssItem)).url = JsonField.str "" ∧
    List.countP (fun a => decide (a.url = JsonField.str ""))
      [itemToArticle ⟨"T1", "", ""⟩, itemToArticle ⟨"T2", "", ""⟩] = 2 := by
  exact ⟨rfl, rfl, rfl, rfl⟩

/-- C2 (amended): within the keyword adapter's output at most one empty-url
record survives (its first empty-url record marks the empty string as seen
and later ones are dropped); empty-url records from the feed adapter are
appended without deduplication, so the whole run can keep several. -/
theorem newsapi_at_most_one_empty_url (responses : List NewsApiResponse)
    (out : List Article) (h : fetch_newsapi_articles responses = Except.ok out) :
    out.countP (fun a => decide (a.url = JsonField.str "")) ≤ 1 := by
  refine countP_le_one_of_nodup_map (fun a => jGet a.url)
    (fun a => decide (a.url = JsonField.str "")) (some "") ?_ out
    (fetch_newsapi_ok_nodup responses out h)
  intro a ha
  have hu : a.url = JsonField.str "" := of_decide_eq_true ha
  show jGet a.url = some ""
  rw [hu]
  rfl

/-- Witness for C2 (amended): of two empty-url articles returned for one
keyword, exactly one survives the dedup pass. -/
theorem newsapi_at_most_one_empty_url_witness :
    List.countP (fun a => decide (a.url = JsonField.str "")) [emptyUrlArticle] ≤ 1 :=
  newsapi_at_most_one_empty_url [emptyUrlNewsResponse] [emptyUrlArticle] rfl

/-- C3: the code's dedup pass equals the spec's reference algorithm (single
left-to-right pass, first occurrence of each url wins), its output is a
sublist of the input (so relative order of first occurrences is preserved)
of length at most the input's, and on the spec's two-record example it keeps
exactly the first record. -/
theorem dedupe_matches_reference (l : List Article)
    (h : ∀ a ∈ l, ∃ s, a.url = JsonField.str s) :
    dedupe l = Except.ok (dedupeSpec l) ∧
    (dedupeSpec l).Sublist l ∧
    (dedupeSpec l).length ≤ l.length ∧
    dedupe [articleT1, articleT2] = Except.ok [articleT1] := by
  have hmiss : ∀ a ∈ l, a.url ≠ JsonField.missing := by
    intro a ha
    obtain ⟨s, hs⟩ := h a ha
    rw [hs]
    intro hc
    cases hc
  refine ⟨?_, dedupeSpecGo_sublist l [], (dedupeSpecGo_sublist l []).length_le, rfl⟩
  rw [dedupe, dedupeGo_eq_total l [] [] hmiss, dedupeSpec]
  have hspec : dedupeTotal (([] : List String).map some) l = dedupeSpecGo [] l :=
    dedupeTotal_eq_specGo l [] h
  simp only [List.map_nil] at hspec
  rw [hspec]
  rfl

/-- Witness for C3 on the spec's own two-record example. -/
theorem dedupe_matches_reference_witness :
    dedupe [articleT1, articleT2] = Except.ok (dedupeSpec [articleT1, articleT2]) ∧
    (dedupeSpec [articleT1, articleT2]).length ≤ 2 := by
  have h := dedupe_matches_reference [articleT1, articleT2]
    (by intro a ha; fin_cases ha <;> exact ⟨"a", rfl⟩)
  exact ⟨h.1, h.2.2.1⟩

/-- C4: the formatter renders exactly the first 30 records — its paragraph
list has length `min 30` of the input length, the paragraph at position `j`
is the rendering of record `j` with 1-based number `j + 1`, and the output
joins the paragraphs with a blank line. -/
theorem format_caps_at_thirty (l : List Article)
    (h : ∀ a ∈ l, a.source ≠ SrcField.null) :
    format_articles_for_prompt l =
      Except.ok (String.intercalate "\n\n" (linesOk 1 (l.take 30))) ∧
    (linesOk 1 (l.take 30)).length = min 30 l.length ∧
    ∀ j a, (l.take 30).get? j = some a →
      (linesOk 1 (l.take 30)).get? j =
        some (formatLine (j + 1) (sourceNameOk a.source) a) := by
  have htake : ∀ a ∈ l.take 30, a.source ≠ SrcField.null :=
    fun a ha => h a (List.take_subset 30 l ha)
  refine ⟨?_, ?_, ?_⟩
  · rw [format_articles_for_prompt, formatLines_eq_ok (l.take 30) 1 htake]
  · rw [linesOk_length, List.length_take]
  · intro j a hj
    rw [linesOk_get, hj]
    have harith : 1 + j = j + 1 := by omega
    simp only [Option.map_some']
    rw [harith]

/-- Witness for C4: a 40-record list yields exactly 30 rendered paragraphs. -/
theorem format_caps_at_thirty_witness :
    format_articles_for_prompt (List.replicate 40 articleT1) =
      Except.ok (String.intercalate "\n\n"
        (linesOk 1 ((List.replicate 40 articleT1).take 30))) ∧
    (linesOk 1 ((List.replicate 40 articleT1).take 30)).length =
      min 30 (List.replicate 40 articleT1).length ∧
    (linesOk 1 ((List.replicate 40 articleT1).take 30)).length = 30 := by
  have h := format_caps_at_thirty (List.replicate 40 articleT1)
    (by intro a ha; rw [List.eq_of_mem_replicate ha]; decide)
  exact ⟨h.1, h.2.1, h.2.1.trans (by decide)⟩

/-- C5: missing or `None` fields render as the empty string (never the
token "None" or "null"), and a missing or `None` source name renders as
"Unknown"; a record with `None` title and `None` description renders both
as empty strings in its paragraph. -/
theorem missing_fields_render_empty (a : Article) (i : Nat) (src : String)
    (ht : a.title = JsonField.missing ∨ a.title = JsonField.null)
    (hd : a.description = JsonField.missing ∨ a.description = JsonField.null) :
    formatLine i src a =
      toString i ++ ". [" ++ src ++ "] " ++ "" ++ "\n   " ++
        pyOr (jGet a.publishedAt) "" ++ "\n   " ++ "" ++ "\n   " ++
        pyOr (jGet a.url) "" ∧
    pyOr (jGet a.title) "" = "" ∧
    pyOr (jGet a.description) "" = "" ∧
    (∀ f : JsonField, f = JsonField.missing ∨ f = JsonField.null →
      pyOr (jGet f) "" = "" ∧ pyOr (jGet f) "" ≠ "None" ∧
        pyOr (jGet f) "" ≠ "null") ∧
    (∀ s : SrcField, s = SrcField.missing ∨ s = SrcField.obj JsonField.missing ∨
      s = SrcField.obj JsonField.null → sourceName s = Except.ok "Unknown") := by
  have h1 : jGet a.title = none := by rcases ht with h | h <;> rw [h] <;> rfl
  have h2 : jGet a.description = none := by rcases hd with h | h <;> rw [h] <;> rfl
  refine ⟨?_, ?_, ?_, ?_, ?_⟩
  · rw [formatLine, h1, h2]
    rfl
  · rw [h1]
    rfl
  · rw [h2]
    rfl
  · intro f hf
    rcases hf with h | h <;> subst h <;> exact ⟨rfl, by decide, by decide⟩
  · intro s hs
    rcases hs with h | h | h <;> subst h <;> rfl

/-- Witness for C5 on a record whose title and description are `None`. -/
theorem missing_fields_render_empty_witness :
    formatLine 1 "Unknown" articleNulls =
      toString 1 ++ ". [" ++ "Unknown" ++ "] " ++ "" ++ "\n   " ++
        pyOr (jGet articleNulls.publishedAt) "" ++ "\n   " ++ "" ++ "\n   " ++
        pyOr (jGet articleNulls.url) "" ∧
    pyOr (jGet articleNulls.title) "" = "" ∧
    pyOr (jGet articleNulls.description) "" = "" := by
  have h := missing_fields_render_empty articleNulls 1 "Unknown"
    (Or.inr rfl) (Or.inr rfl)
  exact ⟨h.1, h.2.1, h.2.2.1⟩

/-- C6: when both adapters return empty lists, the driver performs only its
narration prints and the abort message — no generation step, no delivery
step — and its step list ends in the terminal message, a clean return. -/
theorem empty_input_aborts_cleanly :
    main [] [] =
      [Step.printMsg "Fetching articles from NewsAPI...",
       Step.printMsg "  Found 0 articles from NewsAPI",
       Step.printMsg "Fetching articles from Google News RSS...",
       Step.printMsg "  Found 0 articles from Google News RSS",
       Step.printMsg "No articles found. Exiting."] ∧
    (main [] []).all (fun s =>
      match s with
      | Step.printMsg _ => true
      | _ => false) = true := by
  exact ⟨rfl, rfl⟩

/-- C7: over well-typed input (every record's "source" field, when present,
is a dict, never `None`) the formatter always returns a string: its error
branch is unreachable. -/
theorem formatter_total_on_welltyped (l : List Article)
    (h : ∀ a ∈ l, a.source ≠ SrcField.null) :
    format_articles_for_prompt l =
      Except.ok (String.intercalate "\n\n" (linesOk 1 (l.take 30))) := by
  have htake : ∀ a ∈ l.take 30, a.source ≠ SrcField.null :=
    fun a ha => h a (List.take_subset 30 l ha)
  rw [format_articles_for_prompt, formatLines_eq_ok (l.take 30) 1 htake]

/-- Witness for C7 at a concrete one-record list. -/
theorem formatter_total_on_welltyped_witness :
    format_articles_for_prompt [articleT1] =
      Except.ok (String.intercalate "\n\n" (linesOk 1 ([articleT1].take 30))) :=
  formatter_total_on_welltyped [articleT1]
    (by intro a ha; fin_cases ha; decide)

/-- C8: a non-success response for one keyword contributes nothing — both
the collected article list and the adapter's deduplicated result equal
those of the run in which that keyword is absent, so the remaining
keywords' results all survive in keyword order and no exception escapes
that call. -/
theorem nonsuccess_keyword_skipped (responses : List NewsApiResponse)
    (k : Nat) (r : NewsApiResponse) (hk : responses.get? k = some r)
    (h200 : r.status ≠ 200) :
    newsapiGo [] responses = newsapiGo [] (responses.eraseIdx k) ∧
    fetch_newsapi_articles responses =
      fetch_newsapi_articles (responses.eraseIdx k) := by
  have hraw := newsapiGo_erase responses k r hk h200
  exact ⟨hraw, by rw [fetch_newsapi_articles, fetch_newsapi_articles, hraw]⟩

/-- Witness for C8: an HTTP 500 for the first of two keywords leaves the
second keyword's results intact. -/
theorem nonsuccess_keyword_skipped_witness :
    newsapiGo [] [failResponse, okResponse] =
      newsapiGo [] ([failResponse, okResponse].eraseIdx 0) ∧
    fetch_newsapi_articles [failResponse, okResponse] =
      fetch_newsapi_articles ([failResponse, okResponse].eraseIdx 0) :=
  nonsuccess_keyword_skipped [failResponse, okResponse] 0 failResponse rfl
    (by decide)

/-- C9: every record the feed adapter produces carries the constant source
label "Google News" and an empty description; the output is the
concatenation, in query order, of each query's contribution, and each
200-response contributes at most its first five items in document order. -/
theorem rss_records_shape (responses : List RssResponse) :
    (∀ a ∈ fetch_google_news_rss responses,
      a.source = SrcField.obj (JsonField.str "Google News") ∧
        a.description = JsonField.str "") ∧
    fetch_google_news_rss responses = (responses.map rssPerQuery).join ∧
    ∀ r : RssResponse, (rssPerQuery r).length ≤ 5 := by
  refine ⟨?_, fetch_rss_eq_join responses, ?_⟩
  · intro a ha
    rw [fetch_rss_eq_join, List.mem_join] at ha
    obtain ⟨qs, hqs, haq⟩ := ha
    rw [List.mem_map] at hqs
    obtain ⟨r, _, rfl⟩ := hqs
    rw [rssPerQuery] at haq
    by_cases h200 : r.status = 200
    · rw [if_pos h200, List.mem_map] at haq
      obtain ⟨item, _, rfl⟩ := haq
      exact ⟨rfl, rfl⟩
    · rw [if_neg h200] at haq
      simp at haq
  · intro r
    rw [rssPerQuery]
    by_cases h200 : r.status = 200
    · rw [if_pos h200, List.length_map, List.length_take]
      exact min_le_left 5 _
    · rw [if_neg h200]
      simp

/-- Witness for C9 at a concrete feed response. -/
theorem rss_records_shape_witness :
    ((itemToArticle ⟨"T1", "a", "d1"⟩).source =
        SrcField.obj (JsonField.str "Google News") ∧
      (itemToArticle ⟨"T1", "a", "d1"⟩).description = JsonField.str "") ∧
    fetch_google_news_rss [dupRssResponse] =
      ([dupRssResponse].map rssPerQuery).join := by
  have h := rss_records_shape [dupRssResponse]
  exact ⟨h.1 (itemToArticle ⟨"T1", "a", "d1"⟩) (by decide), h.2.1⟩

/-- C10: the dedup pass raises `KeyError` exactly when some record lacks a
"url" key; under the precondition that every record carries one it is total
and returns the kept records. -/
theorem dedupe_requires_url_key (l : List Article) :
    (dedupe l = Except.error "KeyError" ↔ ∃ a ∈ l, a.url = JsonField.missing) ∧
    ((∀ a ∈ l, a.url ≠ JsonField.missing) →
      dedupe l = Except.ok (dedupeTotal [] l)) := by
  have htot : (∀ a ∈ l, a.url ≠ JsonField.missing) →
      dedupe l = Except.ok (dedupeTotal [] l) := by
    intro hno
    rw [dedupe, dedupeGo_eq_total l [] [] hno]
    rfl
  refine ⟨⟨?_, ?_⟩, htot⟩
  · intro herr
    by_contra hno
    push_neg at hno
    rw [htot hno] at herr
    cases herr
  · intro hex
    exact dedupeGo_missing l [] [] hex

/-- Witness for C10: one record without a "url" key raises, one record with
a "url" key is deduplicated normally. -/
theorem dedupe_requires_url_key_witness :
    dedupe [articleNoUrl] = Except.error "KeyError" ∧
    dedupe [articleT1] = Except.ok (dedupeTotal [] [articleT1]) := by
  refine ⟨(dedupe_requires_url_key [articleNoUrl]).1.mpr
      ⟨articleNoUrl, by simp, rfl⟩,
    (dedupe_requires_url_key [articleT1]).2
      (by intro a ha; fin_cases ha; decide)⟩

end NewsPipe
